import Mathlib

/-!
live-reload: the streaming HTML injector and the change-broadcast hub.

A shallow embedding of `packages/live-reload/live-reload.js`.

* Buffers are lists of bytes (`List Nat`).
* A JavaScript exception is the `error` side of `Except JSError`.
* `LIVE_RELOAD_SCRIPT` is read at start-up from `live-reload-script.html`, a file that is
  not part of the sources at hand; every definition that uses it takes it as a
  parameter.
* The pieces of the Node.js runtime the program calls (`Buffer.prototype.lastIndexOf`,
  `Buffer.prototype.fill`, `EventEmitter.prototype.addListener / removeListener / emit`,
  the `+` operator, `String.prototype.startsWith`) are modelled after their documented
  behaviour, as far as the program exercises them; `socket.send` is the method of
  the `ws` socket that `@fastify/websocket` hands to the route.
-/

namespace LiveReload

/-! ## Runtime values -/

deriving instance DecidableEq for Except

/-- A Node.js `Buffer` (or `Uint8Array`): a sequence of bytes. -/
abbrev Buffer := List Nat

/-- The JavaScript exceptions the modelled code can raise. -/
inductive JSError where
  /-- Property access on `undefined`, or a call of something that is not a function. -/
  | typeError
  /-- `ERR_INVALID_ARG_VALUE`: `Buffer.prototype.fill` with an empty fill value. -/
  | invalidArgValue
  /-- `ERR_BUFFER_OUT_OF_BOUNDS`: `Buffer.prototype.fill` outside the buffer. -/
  | bufferOutOfBounds
  deriving DecidableEq, Repr

/-- The value of a reply header: a JavaScript number, a string, or an array of
strings. The numbers are the ones a length can be: `num n` is the double with the
integer value `n` (so `n` is a natural number that a double represents), `infinity`
and `NaN`. -/
inductive HeaderValue where
  | num (n : Nat)
  | infinity
  | nan
  | str (s : String)
  | arr (l : List String)
  deriving DecidableEq, Repr

/-- The reply headers, keyed by lower-case header name. -/
abbrev Headers := List (String × HeaderValue)

/-- The part of a Fastify reply that `onSendHook` reads and writes. -/
structure Reply where
  statusCode : Nat
  headers : Headers
  deriving DecidableEq, Repr

/-- The body handed to the `onSend` hook. `readable` is an instance of
`stream.Readable` that will yield the listed buffers; the other constructors are the
payloads that are not streams. -/
inductive Payload where
  | readable (chunks : List Buffer)
  | string (s : String)
  | buffer (b : Buffer)
  | null
  deriving DecidableEq, Repr

/-- The second argument of `done`: either the payload the hook was given, or
`payload.pipe(new stream.Transform({ transform }))` over the chunks of a readable. -/
inductive SentPayload where
  | original (p : Payload)
  | piped (chunks : List Buffer)
  deriving DecidableEq, Repr

/-- A call `done(err, payload)`; `err = none` is `null`. -/
structure Done where
  err : Option JSError
  payload : SentPayload
  deriving DecidableEq, Repr

/-! ## Reply headers -/

/-- The call `reply.getHeader(key)`: the stored value, `none` for `undefined`. -/
def Reply.getHeader (reply : Reply) (key : String) : Option HeaderValue :=
  (reply.headers.find? (fun kv => kv.1 == key)).map (fun kv => kv.2)

/-- Store `value` under `key`, replacing an earlier value. -/
def setHeaderEntry (key : String) (value : HeaderValue) : Headers → Headers
  | [] => [(key, value)]
  | kv :: rest =>
    if kv.1 == key then (key, value) :: rest else kv :: setHeaderEntry key value rest

/-- The call `reply.header(key, value)`. -/
def Reply.header (reply : Reply) (key : String) (value : HeaderValue) : Reply :=
  { reply with headers := setHeaderEntry key value reply.headers }

/-- The JavaScript expression `value.startsWith(searchString)` for a header value:
defined on strings only; `undefined`, numbers and arrays have no such method. -/
def startsWith (value : Option HeaderValue) (searchString : String) : Except JSError Bool :=
  match value with
  | some (.str s) => .ok (searchString.data.isPrefixOf s.data)
  | _ => .error .typeError

/-- The double nearest to the natural number `x`, ties to the even significand: a
double keeps the 53 leading bits of `x`. -/
def roundDouble (x : Nat) : Nat :=
  let e := Nat.log2 x - 52
  let q := x / 2 ^ e
  let r := x % 2 ^ e
  let half := 2 ^ (e - 1)
  (if r > half ∨ (r = half ∧ q % 2 = 1) then q + 1 else q) * 2 ^ e

/-- The sum of two doubles with natural values, as the double `+` yields it: the
exact sum below 2^53, where every natural number is a double; from there on the sum
rounded to the nearest double, and `Infinity` when that reaches 2^1024. -/
def addNumbers (m n : Nat) : HeaderValue :=
  if m + n < 2 ^ 53 then .num (m + n)
  else if Nat.log2 (roundDouble (m + n)) < 1024 then .num (roundDouble (m + n))
  else .infinity

/-- The JavaScript expression `value + n` for a header value and a number `n`:
addition of doubles on numbers, `NaN` for `undefined`, string concatenation
otherwise. -/
def jsAdd (value : Option HeaderValue) (n : Nat) : HeaderValue :=
  match value with
  | none => .nan
  | some (.num m) => addNumbers m n
  | some .infinity => .infinity
  | some .nan => .nan
  | some (.str s) => .str (s ++ toString n)
  | some (.arr l) => .str (",".intercalate l ++ toString n)

/-! ## Buffers -/

/-- The constant `ENCODED_CLOSING_HTML_TAG`: the bytes of `</html>`. -/
def ENCODED_CLOSING_HTML_TAG : Buffer := [60, 47, 104, 116, 109, 108, 62]

/-- Whether `needle` occurs in `hay` at byte index `i`. -/
def matchesAt (hay needle : Buffer) (i : Nat) : Bool :=
  (hay.drop i).take needle.length == needle

/-- The backwards scan of `lastIndexOf`: the greatest index `≤ start` where `needle`
occurs, `-1` when there is none. -/
def lastIndexOfFrom (hay needle : Buffer) : Nat → Int
  | 0 => if matchesAt hay needle 0 then 0 else -1
  | k + 1 => if matchesAt hay needle (k + 1) then ((k + 1 : Nat) : Int)
             else lastIndexOfFrom hay needle k

/-- The call `hay.lastIndexOf(needle)` with a `Uint8Array` needle and no byte offset:
the search starts at the end of the buffer. -/
def lastIndexOf (hay needle : Buffer) : Int :=
  lastIndexOfFrom hay needle hay.length

/-- The fill value repeated from its start until `n` bytes are written. -/
def repeatPattern (value : Buffer) (n : Nat) : Buffer :=
  (List.range n).map (fun k => value.getD (k % value.length) 0)

/-- The native part of `Buffer.prototype.fill` for a buffer fill value: bytes
`start .. stop` of `buf` are overwritten with `value`, repeated as often as needed
and cut at `stop`. An empty `value` for a non-empty range is an invalid argument. -/
def bindingFill (buf value : Buffer) (start stop : Nat) : Except JSError Buffer :=
  if start > stop ∨ stop > buf.length then .error .bufferOutOfBounds
  else
    let fillLength := stop - start
    if value.length ≥ fillLength then
      .ok (buf.take start ++ value.take fillLength ++ buf.drop stop)
    else if value.length = 0 then .error .invalidArgValue
    else .ok (buf.take start ++ repeatPattern value fillLength ++ buf.drop stop)

/-- The call `buf.fill(value)` (`offset = none`) or `buf.fill(value, offset)`; the end
of the range is the end of the buffer. With an offset at or past the end nothing is
written. -/
def fill (buf value : Buffer) (offset : Option Nat) : Except JSError Buffer :=
  match offset with
  | none => bindingFill buf value 0 buf.length
  | some off => if off ≥ buf.length then .ok buf else bindingFill buf value off buf.length

/-- The call `Buffer.alloc(n)`: `n` zero bytes. -/
def alloc (n : Nat) : Buffer := List.replicate n 0

/-! ## The streaming injector -/

/-- The `transform(chunk, encoding, callback)` method of the stream built in
`onSendHook`. `.ok b` is `callback(null, b)`. -/
def transform (LIVE_RELOAD_SCRIPT chunk : Buffer) (encoding : String) : Except JSError Buffer :=
  if encoding = "buffer" then
    let i := lastIndexOf chunk ENCODED_CLOSING_HTML_TAG
    if i > 0 then do
      let injected := alloc (chunk.length + LIVE_RELOAD_SCRIPT.length)
      let injected ← fill injected (chunk.take i.toNat) none
      let injected ← fill injected LIVE_RELOAD_SCRIPT (some i.toNat)
      let injected ← fill injected (chunk.drop i.toNat) (some (i.toNat + LIVE_RELOAD_SCRIPT.length))
      .ok injected
    else .ok chunk
  else .ok chunk

/-- The hook `onSendHook(_, reply, payload, done)`. The result is the reply after the
hook together with the call of `done`, or the exception the hook raises. -/
def onSendHook (LIVE_RELOAD_SCRIPT : Buffer) (reply : Reply) (payload : Payload) :
    Except JSError (Reply × Done) :=
  if reply.statusCode = 304 then .ok (reply, ⟨none, .original payload⟩)
  else do
    let isHtml ← startsWith (reply.getHeader "content-type") "text/html"
    if isHtml then
      let contentLength := reply.getHeader "content-length"
      let reply := reply.header "content-length" (jsAdd contentLength LIVE_RELOAD_SCRIPT.length)
      match payload with
      | .readable chunks => .ok (reply, ⟨none, .piped chunks⟩)
      | _ => .ok (reply, ⟨none, .original payload⟩)
    else .ok (reply, ⟨none, .original payload⟩)

/-- The stream `payload.pipe(new stream.Transform({ transform }))`: every chunk of
the readable is handed to `transform` as a buffer (the stream is not in object mode,
so the encoding is `"buffer"`) and the results are yielded in order; an exception in
`transform` fails the stream. -/
def pipeTransform (LIVE_RELOAD_SCRIPT : Buffer) : List Buffer → Except JSError (List Buffer)
  | [] => .ok []
  | chunk :: rest => do
    let out ← transform LIVE_RELOAD_SCRIPT chunk "buffer"
    let outs ← pipeTransform LIVE_RELOAD_SCRIPT rest
    .ok (out :: outs)

/-- The body a sent payload delivers: the transformed chunks of a piped readable, the
payload itself when it was passed on as it is. -/
def served (LIVE_RELOAD_SCRIPT : Buffer) : SentPayload → Except JSError Payload
  | .piped chunks => (pipeTransform LIVE_RELOAD_SCRIPT chunks).map Payload.readable
  | .original p => .ok p

/-- The body a response ends up with: `onSendHook` runs, then the payload it passed to
`done` is delivered. -/
def servedBody (LIVE_RELOAD_SCRIPT : Buffer) (reply : Reply) (payload : Payload) :
    Except JSError Payload := do
  let r ← onSendHook LIVE_RELOAD_SCRIPT reply payload
  served LIVE_RELOAD_SCRIPT r.2.payload

/-- The bytes of an ASCII string. -/
def bytes (s : String) : Buffer := s.data.map (fun c => c.toNat)

/-! ## The change-broadcast hub

`fileWatcher` is an `EventEmitter`. The `/ws` route creates one handler per accepted
socket with `createSendLiveReloadMessageHandler(socket)`; the handler is a fresh closure,
so it is identified with its socket, and sockets are numbered in the order in which
they are accepted. -/

/-- A call `socket.send(data)`: the socket, the data, and whether the data went out.
A socket that is no longer open drops the data without raising. -/
structure SendCall where
  socket : Nat
  data : String
  delivered : Bool
  deriving DecidableEq, Repr

/-- The call `emitter.addListener(event, listener)`: the listener is appended. -/
def addListener (listeners : List Nat) (listener : Nat) : List Nat :=
  listeners ++ [listener]

/-- The call `emitter.removeListener(event, listener)`: the listener is removed once,
at its most recent registration, if it is registered at all. -/
def removeListener (listeners : List Nat) (listener : Nat) : List Nat :=
  (listeners.reverse.erase listener).reverse

/-- The call `socket.send(data)` without a callback, on a socket whose handshake is
over: it never raises. The data goes out when the socket is open; a socket that is
closing or closed (`stale socket`) drops it silently. The call is recorded in `log`. -/
def socketSend (stale : Nat → Bool) (socket : Nat) (data : String)
    (log : List SendCall) : List SendCall :=
  log ++ [⟨socket, data, !stale socket⟩]

/-- The handler returned by `createSendLiveReloadMessageHandler(socket)`: after the
log line, `socket.send("reload")`. -/
def sendLiveReloadMessageHandler (stale : Nat → Bool) (socket : Nat)
    (log : List SendCall) : List SendCall :=
  socketSend stale socket "reload" log

/-- The call `fileWatcher.emit("change", filepath)`: the listeners are called one
after the other in registration order. -/
def emit (stale : Nat → Bool) : List Nat → List SendCall → List SendCall
  | [], log => log
  | listener :: rest, log =>
    emit stale rest (sendLiveReloadMessageHandler stale listener log)

/-- The calls of `socket.send` that one change event makes. -/
def broadcast (stale : Nat → Bool) (listeners : List Nat) : List SendCall :=
  emit stale listeners []

/-- The state of the hub. -/
structure Hub where
  /-- The number of sockets the `/ws` route has accepted: the next socket. -/
  accepted : Nat
  /-- The listeners of `fileWatcher` for `change`, in registration order. -/
  listeners : List Nat
  /-- The sockets whose `close` event has fired. -/
  closed : List Nat
  /-- Every call of `socket.send` made so far. -/
  wire : List SendCall
  deriving DecidableEq, Repr

/-- The hub at start-up: no socket, no listener. -/
def Hub.init : Hub := ⟨0, [], [], []⟩

/-- The `/ws` route handler runs for a new socket: its handler is added to the
listeners of `change`. -/
def Hub.connect (s : Hub) : Hub :=
  { s with accepted := s.accepted + 1, listeners := addListener s.listeners s.accepted }

/-- The `close` event of socket `c` fires: its handler is removed from the listeners. -/
def Hub.close (s : Hub) (c : Nat) : Hub :=
  { s with closed := c :: s.closed, listeners := removeListener s.listeners c }

/-- The watcher emits one `change` event; `stale` says which sockets are no longer
open at that time. -/
def Hub.change (s : Hub) (stale : Nat → Bool) : Hub :=
  { s with wire := s.wire ++ broadcast stale s.listeners }

/-- One step of the hub: a socket connects, the `close` event of an accepted socket
fires, or a change is broadcast (with any pattern of failing sends). A failed send
is not a step of its own: it changes nothing but the record of the call. -/
inductive Step : Hub → Hub → Prop where
  | connect (s : Hub) : Step s s.connect
  | close (s : Hub) (c : Nat) (h : c < s.accepted) : Step s (s.close c)
  | change (s : Hub) (stale : Nat → Bool) : Step s (s.change stale)

/-- The states the hub can be in. -/
inductive Reachable : Hub → Prop where
  | init : Reachable Hub.init
  | step {s t : Hub} (hs : Reachable s) (hst : Step s t) : Reachable t

/-- Socket `c` is an open connection: it was accepted and its `close` event has not
fired. -/
def Hub.isOpen (s : Hub) (c : Nat) : Prop :=
  c < s.accepted ∧ c ∉ s.closed

/-! ## The inputs of the scenarios -/

/-- The body of `index.html` in the end-to-end scenario. -/
def indexHtml : Buffer := bytes "<html><body>hi</body></html>"

/-- A reload script for the scenarios: any non-empty byte sequence will do. -/
def sampleScript : Buffer := bytes "<script></script>"

/-- The reply for `index.html`: status 200, an HTML content type and the length of the
body as `content-length`. -/
def indexReply : Reply :=
  ⟨200, [("content-type", .str "text/html; charset=utf-8"),
         ("content-length", .num indexHtml.length)]⟩

/-- A body that starts with its only closing tag. -/
def tagFirst : Buffer := bytes "</html>"

/-- An HTML reply for a body of `n` bytes. -/
def htmlReply (n : Nat) : Reply :=
  ⟨200, [("content-type", .str "text/html"), ("content-length", .num n)]⟩

/-- A reply without a content-type header, as sent for a file whose extension has
no known media type. -/
def untypedReply : Reply := ⟨200, [("content-length", .num 11)]⟩

/-- The hub after three sockets have connected. -/
def threeOpen : Hub := Hub.init.connect.connect.connect

/-- The hub after three sockets have connected and the second has closed. -/
def middleClosed : Hub := threeOpen.close 1

/-! ## Predicates used in the statements -/

/-- `i` is the index of the last occurrence of the closing tag in `chunk`. -/
def IsLastOccurrence (chunk : Buffer) (i : Nat) : Prop :=
  matchesAt chunk ENCODED_CLOSING_HTML_TAG i = true ∧
    ∀ j, i < j → matchesAt chunk ENCODED_CLOSING_HTML_TAG j = false

/-- The closing tag does not occur in `chunk`. -/
def NoOccurrence (chunk : Buffer) : Prop :=
  ∀ j, matchesAt chunk ENCODED_CLOSING_HTML_TAG j = false

/-! ## Lemmas on the buffer operations -/

theorem length_repeatPattern (value : Buffer) (n : Nat) :
    (repeatPattern value n).length = n := by
  simp [repeatPattern]

theorem take_repeatPattern (value : Buffer) (n m : Nat) (hm : m ≤ value.length)
    (hn : m ≤ n) : (repeatPattern value n).take m = value.take m := by
  apply List.ext_getElem
  · simp [repeatPattern]; omega
  · intro k h1 h2
    simp only [List.length_take, repeatPattern, List.length_map, List.length_range] at h1 h2
    have hk : k < value.length := by omega
    simp [repeatPattern, List.getD_eq_getElem?_getD, Nat.mod_eq_of_lt hk,
      List.getElem?_eq_getElem hk]

theorem matchesAt_bound (hay : Buffer) (i : Nat)
    (h : matchesAt hay ENCODED_CLOSING_HTML_TAG i = true) : i + 7 ≤ hay.length := by
  have h1 : (hay.drop i).take 7 = ENCODED_CLOSING_HTML_TAG := by
    simpa [matchesAt, ENCODED_CLOSING_HTML_TAG] using h
  have h2 := congrArg List.length h1
  simp [ENCODED_CLOSING_HTML_TAG] at h2
  omega

theorem lastIndexOfFrom_spec (hay needle : Buffer) (k : Nat) :
    (lastIndexOfFrom hay needle k = -1 ∧ ∀ j, j ≤ k → matchesAt hay needle j = false) ∨
    (∃ i : Nat, lastIndexOfFrom hay needle k = (i : Int) ∧ i ≤ k ∧
      matchesAt hay needle i = true ∧
      ∀ j, i < j → j ≤ k → matchesAt hay needle j = false) := by
  induction k with
  | zero =>
    unfold lastIndexOfFrom
    by_cases h : matchesAt hay needle 0 = true
    · right
      refine ⟨0, by simp [h], le_refl _, h, ?_⟩
      intro j h1 h2; omega
    · left
      refine ⟨by simp [h], ?_⟩
      intro j hj
      have : j = 0 := by omega
      subst this; simpa using h
  | succ k ih =>
    unfold lastIndexOfFrom
    by_cases h : matchesAt hay needle (k + 1) = true
    · right
      refine ⟨k + 1, by simp [h], le_refl _, h, ?_⟩
      intro j h1 h2; omega
    · simp only [h, if_false, Bool.false_eq_true]
      rcases ih with ⟨h1, h2⟩ | ⟨i, h1, h2, h3, h4⟩
      · left
        refine ⟨h1, ?_⟩
        intro j hj
        by_cases hjk : j = k + 1
        · subst hjk; simpa using h
        · exact h2 j (by omega)
      · right
        refine ⟨i, h1, by omega, h3, ?_⟩
        intro j hj1 hj2
        by_cases hjk : j = k + 1
        · subst hjk; simpa using h
        · exact h4 j hj1 (by omega)

theorem matchesAt_beyond (hay : Buffer) (j : Nat) (h : hay.length < j) :
    matchesAt hay ENCODED_CLOSING_HTML_TAG j = false := by
  by_contra hc
  have := matchesAt_bound hay j (by simpa using hc)
  omega

theorem lastIndexOf_of_isLast (chunk : Buffer) (i : Nat) (h : IsLastOccurrence chunk i) :
    lastIndexOf chunk ENCODED_CLOSING_HTML_TAG = (i : Int) := by
  have hb := matchesAt_bound chunk i h.1
  rcases lastIndexOfFrom_spec chunk ENCODED_CLOSING_HTML_TAG chunk.length with
    ⟨_, h2⟩ | ⟨k, h1, h2, h3, h4⟩
  · have := h2 i (by omega)
    rw [h.1] at this; cases this
  · unfold lastIndexOf
    rw [h1]
    rcases Nat.lt_trichotomy i k with hlt | heq | hgt
    · have := h.2 k hlt
      rw [h3] at this; cases this
    · rw [heq]
    · have := h4 i hgt (by omega)
      rw [h.1] at this; cases this

theorem lastIndexOf_of_none (chunk : Buffer) (h : NoOccurrence chunk) :
    lastIndexOf chunk ENCODED_CLOSING_HTML_TAG = -1 := by
  rcases lastIndexOfFrom_spec chunk ENCODED_CLOSING_HTML_TAG chunk.length with
    ⟨h1, _⟩ | ⟨k, _, _, h3, _⟩
  · exact h1
  · have := h k
    rw [h3] at this; cases this

/-- The three `fill` calls of `transform` on a zeroed buffer of the combined length
leave the chunk with the script spliced in at `n`. -/
theorem three_fills (script chunk : Buffer) (n : Nat) (hn : 0 < n)
    (hlt : n < chunk.length) (hs : script ≠ []) :
    (do
      let injected := alloc (chunk.length + script.length)
      let injected ← fill injected (chunk.take n) none
      let injected ← fill injected script (some n)
      let injected ← fill injected (chunk.drop n) (some (n + script.length))
      (Except.ok injected : Except JSError Buffer)) =
    .ok (chunk.take n ++ script ++ chunk.drop n) := by
  have hL : 0 < script.length := List.length_pos.mpr hs
  have h1 : fill (alloc (chunk.length + script.length)) (chunk.take n) none =
      .ok (repeatPattern (chunk.take n) (chunk.length + script.length)) := by
    simp only [fill, bindingFill, alloc, List.length_replicate, List.length_take]
    rw [if_neg (by omega), if_neg (by omega), if_neg (by omega)]
    simp
  have h2 : fill (repeatPattern (chunk.take n) (chunk.length + script.length)) script
      (some n) = .ok (chunk.take n ++
        repeatPattern script (chunk.length + script.length - n)) := by
    simp only [fill, bindingFill, length_repeatPattern]
    rw [if_neg (by omega), if_neg (by omega), if_neg (by omega), if_neg (by omega)]
    rw [take_repeatPattern _ _ _ (by simp; omega) (by omega)]
    rw [List.drop_of_length_le (by simp [length_repeatPattern])]
    simp [List.take_take]
  have h3 : fill (chunk.take n ++ repeatPattern script (chunk.length + script.length - n))
      (chunk.drop n) (some (n + script.length)) =
      .ok (chunk.take n ++ script ++ chunk.drop n) := by
    have hlen : (chunk.take n ++
        repeatPattern script (chunk.length + script.length - n)).length =
        chunk.length + script.length := by
      simp [length_repeatPattern]; omega
    simp only [fill, bindingFill, hlen]
    rw [if_neg (by omega), if_neg (by omega), if_pos (by simp; omega)]
    have ht : (chunk.take n ++
        repeatPattern script (chunk.length + script.length - n)).take (n + script.length) =
        chunk.take n ++ script := by
      rw [List.take_append_eq_append_take]
      have : (chunk.take n).length = n := by simp; omega
      rw [this, List.take_of_length_le (by omega)]
      have e : n + script.length - n = script.length := by omega
      rw [e, take_repeatPattern _ _ _ (le_refl _) (by omega)]
      simp
    have hd : (chunk.take n ++
        repeatPattern script (chunk.length + script.length - n)).drop
        (chunk.length + script.length) = [] :=
      List.drop_of_length_le (by rw [hlen])
    have e : chunk.length + script.length - (n + script.length) = (chunk.drop n).length := by
      simp; omega
    rw [ht, hd, e, List.take_length]
    simp
  simp only [h1, h2, h3, bind, Except.bind]

theorem isLastOccurrence_of_unique (chunk : Buffer) (i : Nat)
    (h : ∀ j, matchesAt chunk ENCODED_CLOSING_HTML_TAG j = true ↔ j = i) :
    IsLastOccurrence chunk i := by
  refine ⟨(h i).2 rfl, ?_⟩
  intro j hj
  by_contra hc
  have := (h j).1 (by simpa using hc)
  omega

theorem isLastOccurrence_of_tail (chunk : Buffer) (i : Nat)
    (h : matchesAt chunk ENCODED_CLOSING_HTML_TAG i = true) (hlen : chunk.length ≤ i + 7) :
    IsLastOccurrence chunk i := by
  refine ⟨h, ?_⟩
  intro j hj
  by_contra hc
  have := matchesAt_bound chunk j (by simpa using hc)
  omega

theorem transform_of_isLast (script chunk : Buffer) (i : Nat) (hs : script ≠ [])
    (h : IsLastOccurrence chunk i) (hpos : 0 < i) :
    transform script chunk "buffer" = .ok (chunk.take i ++ script ++ chunk.drop i) := by
  have hb := matchesAt_bound chunk i h.1
  have hi := lastIndexOf_of_isLast chunk i h
  unfold transform
  simp only [hi, if_true]
  rw [if_pos (by exact_mod_cast hpos)]
  simpa using three_fills script chunk i hpos (by omega) hs

theorem getHeader_header (reply : Reply) (key : String) (value : HeaderValue) :
    (reply.header key value).getHeader key = some value := by
  obtain ⟨status, headers⟩ := reply
  simp only [Reply.header, Reply.getHeader]
  induction headers with
  | nil => simp [setHeaderEntry]
  | cons kv rest ih =>
    unfold setHeaderEntry
    by_cases h : (kv.1 == key) = true
    · simp [h]
    · simp only [h, if_false, Bool.false_eq_true]
      rw [List.find?_cons_of_neg _ (by simpa using h)]
      exact ih

theorem onSendHook_html (script : Buffer) (reply : Reply) (payload : Payload)
    (hstatus : reply.statusCode ≠ 304)
    (hhtml : startsWith (reply.getHeader "content-type") "text/html" = .ok true) :
    onSendHook script reply payload =
      .ok (reply.header "content-length"
            (jsAdd (reply.getHeader "content-length") script.length),
          ⟨none, match payload with
            | .readable chunks => .piped chunks
            | p => .original p⟩) := by
  unfold onSendHook
  rw [if_neg hstatus, hhtml]
  cases payload <;> rfl

/-! ## Lemmas on the hub -/

theorem emit_eq (stale : Nat → Bool) (listeners : List Nat) (log : List SendCall) :
    emit stale listeners log =
      log ++ listeners.map (fun c => (⟨c, "reload", !stale c⟩ : SendCall)) := by
  induction listeners generalizing log with
  | nil => simp [emit]
  | cons c rest ih =>
    rw [emit, ih]
    simp [sendLiveReloadMessageHandler, socketSend]

theorem broadcast_eq (stale : Nat → Bool) (listeners : List Nat) :
    broadcast stale listeners =
      listeners.map (fun c => (⟨c, "reload", !stale c⟩ : SendCall)) := by
  simp [broadcast, emit_eq]

theorem broadcast_sockets (stale : Nat → Bool) (listeners : List Nat) :
    (broadcast stale listeners).map SendCall.socket = listeners := by
  rw [broadcast_eq, List.map_map]
  exact List.map_id _

theorem addNumbers_small (m n : Nat) (h : m + n < 2 ^ 53) :
    addNumbers m n = .num (m + n) := by
  unfold addNumbers
  rw [if_pos h]

theorem mem_removeListener (listeners : List Nat) (c d : Nat) (h : listeners.Nodup) :
    d ∈ removeListener listeners c ↔ d ≠ c ∧ d ∈ listeners := by
  unfold removeListener
  rw [List.mem_reverse, (List.nodup_reverse.mpr h).mem_erase_iff, List.mem_reverse]

theorem nodup_removeListener (listeners : List Nat) (c : Nat) (h : listeners.Nodup) :
    (removeListener listeners c).Nodup := by
  unfold removeListener
  exact List.nodup_reverse.mpr ((List.nodup_reverse.mpr h).erase c)

/-- The invariant of the hub: no handler is registered twice, the registered handlers
are those of the open connections, and only accepted sockets have closed. -/
theorem reachable_invariant (s : Hub) (h : Reachable s) :
    s.listeners.Nodup ∧ (∀ c, c ∈ s.listeners ↔ s.isOpen c) ∧
      ∀ c ∈ s.closed, c < s.accepted := by
  induction h with
  | init => simp [Hub.init, Hub.isOpen]
  | @step s t hs hst ih =>
    obtain ⟨hnd, hmem, hcl⟩ := ih
    cases hst with
    | connect =>
      refine ⟨?_, ?_, ?_⟩
      · simp only [Hub.connect, addListener]
        rw [List.nodup_append]
        refine ⟨hnd, by simp, ?_⟩
        intro a ha hb
        simp only [List.mem_singleton] at hb
        have := ((hmem a).1 ha).1
        omega
      · intro c
        simp only [Hub.connect, addListener, Hub.isOpen, List.mem_append, List.mem_singleton]
        constructor
        · rintro (hc | hc)
          · have := (hmem c).1 hc
            exact ⟨by have := this.1; omega, this.2⟩
          · subst hc
            refine ⟨by omega, ?_⟩
            intro hin
            have := hcl _ hin
            omega
        · rintro ⟨h1, h2⟩
          by_cases hc : c = s.accepted
          · exact Or.inr hc
          · exact Or.inl ((hmem c).2 ⟨by omega, h2⟩)
      · intro c hc
        have := hcl c hc
        simp only [Hub.connect]
        omega
    | close c hlt =>
      refine ⟨nodup_removeListener _ _ hnd, ?_, ?_⟩
      · intro d
        simp only [Hub.close, Hub.isOpen, List.mem_cons, not_or]
        rw [mem_removeListener _ _ _ hnd, hmem d]
        simp only [Hub.isOpen]
        tauto
      · intro d hd
        simp only [Hub.close, List.mem_cons] at hd ⊢
        rcases hd with hd | hd
        · omega
        · exact hcl d hd
    | change stale =>
      exact ⟨hnd, hmem, hcl⟩

theorem unique_of_bounded (chunk : Buffer) (i : Nat)
    (h : matchesAt chunk ENCODED_CLOSING_HTML_TAG i = true)
    (hall : ∀ j < chunk.length, matchesAt chunk ENCODED_CLOSING_HTML_TAG j = true → j = i) :
    ∀ j, matchesAt chunk ENCODED_CLOSING_HTML_TAG j = true ↔ j = i := by
  intro j
  constructor
  · intro hj
    have := matchesAt_bound chunk j hj
    exact hall j (by omega) hj
  · rintro rfl
    exact h

theorem exists_last_or_none (chunk : Buffer) :
    NoOccurrence chunk ∨ ∃ i, IsLastOccurrence chunk i := by
  rcases lastIndexOfFrom_spec chunk ENCODED_CLOSING_HTML_TAG chunk.length with
    ⟨_, h2⟩ | ⟨k, _, _, h3, h4⟩
  · left
    intro j
    by_cases hj : j ≤ chunk.length
    · exact h2 j hj
    · exact matchesAt_beyond chunk j (by omega)
  · right
    refine ⟨k, h3, ?_⟩
    intro j hj
    by_cases hjl : j ≤ chunk.length
    · exact h4 j hj hjl
    · exact matchesAt_beyond chunk j (by omega)

/-- A response whose content-type header is a string that does not start with
`text/html` passes the hook untouched: `done` gets a null error and the payload, the
reply keeps every header, and the served body is the payload. -/
theorem onSendHook_other_type (script : Buffer) (reply : Reply) (payload : Payload)
    (h : startsWith (reply.getHeader "content-type") "text/html" = .ok false) :
    onSendHook script reply payload = .ok (reply, ⟨none, .original payload⟩) ∧
    servedBody script reply payload = .ok payload := by
  have h1 : onSendHook script reply payload = .ok (reply, ⟨none, .original payload⟩) := by
    unfold onSendHook
    by_cases hs : reply.statusCode = 304
    · rw [if_pos hs]
    · rw [if_neg hs, h]
      rfl
  refine ⟨h1, ?_⟩
  simp only [servedBody, h1, bind, Except.bind, served]

theorem reachable_threeOpen : Reachable threeOpen :=
  .step (.step (.step .init (.connect _)) (.connect _)) (.connect _)

theorem reachable_middleClosed : Reachable middleClosed :=
  .step reachable_threeOpen (.close _ 1 (by decide))

/-! ## The claims: the streaming injector -/

/-- C1, as stated, fails: the body `</html>` holds exactly one occurrence of the closing
tag, at index 0, and the HTML response that delivers it in one chunk is served
unchanged, without the reload script in front of the tag. -/
theorem servedBody_tag_at_start_not_injected :
    (∀ j, matchesAt tagFirst ENCODED_CLOSING_HTML_TAG j = true ↔ j = 0) ∧
    servedBody sampleScript (htmlReply tagFirst.length) (.readable [tagFirst]) =
      .ok (.readable [tagFirst]) ∧
    servedBody sampleScript (htmlReply tagFirst.length) (.readable [tagFirst]) ≠
      .ok (.readable [tagFirst.take 0 ++ sampleScript ++ tagFirst.drop 0]) := by
  refine ⟨unique_of_bounded tagFirst 0 (by decide) (by decide), by decide, by decide⟩

/-- C1, amended: for a non-empty reload script and an HTML response (content-type
starting with `text/html`, status not 304, stream payload) whose body comes as one buffer
chunk with exactly one occurrence of `</html>`, at an index `i > 0`, the served body is
the chunk with the script inserted right before the occurrence and nothing else changed;
so `<html><body>hi</body></html>` is served as `<html><body>hi</body>`, the script,
`</html>`. -/
theorem servedBody_single_chunk (script chunk : Buffer) (reply : Reply) (i : Nat)
    (hstatus : reply.statusCode ≠ 304)
    (hhtml : startsWith (reply.getHeader "content-type") "text/html" = .ok true)
    (honly : ∀ j, matchesAt chunk ENCODED_CLOSING_HTML_TAG j = true ↔ j = i)
    (hpos : 0 < i) (hs : script ≠ []) :
    servedBody script reply (.readable [chunk]) =
      .ok (.readable [chunk.take i ++ script ++ chunk.drop i]) ∧
    servedBody script reply (.readable [bytes "<html><body>hi</body></html>"]) =
      .ok (.readable [bytes "<html><body>hi</body>" ++ script ++ bytes "</html>"]) := by
  have key : ∀ (c : Buffer) (k : Nat), IsLastOccurrence c k → 0 < k →
      servedBody script reply (.readable [c]) =
        .ok (.readable [c.take k ++ script ++ c.drop k]) := by
    intro c k hk hk0
    simp only [servedBody, onSendHook_html script reply _ hstatus hhtml, bind, Except.bind,
      served, pipeTransform, transform_of_isLast script c k hs hk hk0, Except.map]
  refine ⟨key chunk i (isLastOccurrence_of_unique chunk i honly) hpos, ?_⟩
  have := key (bytes "<html><body>hi</body></html>") 21
    (isLastOccurrence_of_tail _ 21 (by decide) (by decide)) (by decide)
  simpa [bytes] using this

theorem servedBody_single_chunk_witness :
    indexReply.statusCode ≠ 304 ∧
    startsWith (indexReply.getHeader "content-type") "text/html" = .ok true ∧
    (∀ j, matchesAt indexHtml ENCODED_CLOSING_HTML_TAG j = true ↔ j = 21) ∧
    sampleScript ≠ [] ∧
    servedBody sampleScript indexReply (.readable [indexHtml]) =
      .ok (.readable [indexHtml.take 21 ++ sampleScript ++ indexHtml.drop 21]) :=
  ⟨by decide, by decide, unique_of_bounded indexHtml 21 (by decide) (by decide), by decide,
    (servedBody_single_chunk sampleScript indexHtml indexReply 21 (by decide) (by decide)
      (unique_of_bounded indexHtml 21 (by decide) (by decide)) (by decide) (by decide)).1⟩

/-- C10: for every chunk, every encoding and every non-empty script, `transform` calls
back with the chunk, the script spliced in at `i`, when the encoding is `"buffer"` and
the last occurrence of `</html>` is at an index `i > 0`; with the chunk itself when the
encoding is not `"buffer"`, when there is no occurrence or when the last occurrence is at
index 0. Every chunk is in one of these cases. -/
theorem transform_output (script chunk : Buffer) (encoding : String) (hs : script ≠ []) :
    (encoding = "buffer" → ∀ i, IsLastOccurrence chunk i → 0 < i →
      transform script chunk encoding = .ok (chunk.take i ++ script ++ chunk.drop i)) ∧
    (encoding ≠ "buffer" ∨ NoOccurrence chunk ∨ IsLastOccurrence chunk 0 →
      transform script chunk encoding = .ok chunk) ∧
    (NoOccurrence chunk ∨ ∃ i, IsLastOccurrence chunk i) := by
  refine ⟨?_, ?_, exists_last_or_none chunk⟩
  · rintro rfl i hi hpos
    exact transform_of_isLast script chunk i hs hi hpos
  · intro h
    unfold transform
    by_cases he : encoding = "buffer"
    · rw [if_pos he]
      rcases h with h | h | h
      · exact absurd he h
      · simp [lastIndexOf_of_none chunk h]
      · simp [lastIndexOf_of_isLast chunk 0 h]
    · rw [if_neg he]

theorem transform_output_witness :
    sampleScript ≠ [] ∧
    transform sampleScript indexHtml "buffer" =
      .ok (indexHtml.take 21 ++ sampleScript ++ indexHtml.drop 21) ∧
    transform sampleScript tagFirst "buffer" = .ok tagFirst ∧
    transform sampleScript indexHtml "utf8" = .ok indexHtml :=
  ⟨by decide,
    (transform_output sampleScript indexHtml "buffer" (by decide)).1 rfl 21
      (isLastOccurrence_of_tail indexHtml 21 (by decide) (by decide)) (by decide),
    (transform_output sampleScript tagFirst "buffer" (by decide)).2.1
      (Or.inr (Or.inr (isLastOccurrence_of_tail tagFirst 0 (by decide) (by decide)))),
    (transform_output sampleScript indexHtml "utf8" (by decide)).2.1 (Or.inl (by decide))⟩

/-! ## The claims: the headers and the pass-through paths of `onSendHook` -/

/-- C2, as stated, fails in its scenario: the body `<html><body>hi</body></html>` has 28
bytes, so with `content-length` equal to the length of the body the header becomes
28 plus the length of the script, which is not 29 plus the length of the script. -/
theorem onSendHook_index_html_content_length :
    indexHtml = bytes "<html><body>hi</body></html>" ∧
    indexReply.getHeader "content-length" = some (.num indexHtml.length) ∧
    (onSendHook sampleScript indexReply (.readable [indexHtml])).map
        (fun r => r.1.getHeader "content-length") =
      .ok (some (.num (28 + sampleScript.length))) ∧
    (onSendHook sampleScript indexReply (.readable [indexHtml])).map
        (fun r => r.1.getHeader "content-length") ≠
      .ok (some (.num (29 + sampleScript.length))) := by
  refine ⟨rfl, by decide, by decide, by decide⟩

/-- C2, amended: for every HTML response with a status other than 304 and a numeric
`content-length` `n`, with `n` plus the byte length of the script below 2^53 (where
the sum of the two doubles is exact), `onSendHook` completes with `content-length` set
to `n` plus the byte length of the script, whatever the payload; with `n` the byte
length of `<html><body>hi</body></html>` the header is 28 plus the length of the
script. -/
theorem onSendHook_content_length (script : Buffer) (reply : Reply) (payload : Payload)
    (n : Nat) (hstatus : reply.statusCode ≠ 304)
    (hhtml : startsWith (reply.getHeader "content-type") "text/html" = .ok true)
    (hlen : reply.getHeader "content-length" = some (.num n))
    (hsafe : n + script.length < 2 ^ 53) :
    (∃ r, onSendHook script reply payload = .ok r ∧ r.2.err = none ∧
      r.1.getHeader "content-length" = some (.num (n + script.length)) ∧
      (n = (bytes "<html><body>hi</body></html>").length →
        r.1.getHeader "content-length" = some (.num (28 + script.length)))) := by
  refine ⟨_, onSendHook_html script reply payload hstatus hhtml, rfl, ?_, ?_⟩
  · simp [getHeader_header, hlen, jsAdd, addNumbers_small n script.length hsafe]
  · intro hn
    have h28 : (bytes "<html><body>hi</body></html>").length = 28 := by decide
    subst hn
    rw [h28] at hsafe hlen
    simp [getHeader_header, hlen, jsAdd, addNumbers_small 28 script.length hsafe]

theorem onSendHook_content_length_witness :
    indexReply.statusCode ≠ 304 ∧
    startsWith (indexReply.getHeader "content-type") "text/html" = .ok true ∧
    indexReply.getHeader "content-length" = some (.num 28) ∧
    28 + sampleScript.length < 2 ^ 53 ∧
    (∃ r, onSendHook sampleScript indexReply (.readable [indexHtml]) = .ok r ∧
      r.2.err = none ∧
      r.1.getHeader "content-length" = some (.num (28 + sampleScript.length)) ∧
      (28 = (bytes "<html><body>hi</body></html>").length →
        r.1.getHeader "content-length" = some (.num (28 + sampleScript.length)))) :=
  ⟨by decide, by decide, by decide, by decide,
    onSendHook_content_length sampleScript indexReply (.readable [indexHtml]) 28
      (by decide) (by decide) (by decide) (by decide)⟩

/-- C3: for every response with status 304, `onSendHook` calls `done` with a null error
and the payload it was given, and the reply (status and every header) is unchanged,
whatever the content-type header is, also when there is none. -/
theorem onSendHook_not_modified (script : Buffer) (reply : Reply) (payload : Payload)
    (h : reply.statusCode = 304) :
    onSendHook script reply payload = .ok (reply, ⟨none, .original payload⟩) := by
  unfold onSendHook
  rw [if_pos h]

theorem onSendHook_not_modified_witness :
    (⟨304, [("etag", .str "W/1c-18")]⟩ : Reply).statusCode = 304 ∧
    (⟨304, [("etag", .str "W/1c-18")]⟩ : Reply).getHeader "content-type" = none ∧
    onSendHook sampleScript ⟨304, [("etag", .str "W/1c-18")]⟩ .null =
      .ok (⟨304, [("etag", .str "W/1c-18")]⟩, ⟨none, .original .null⟩) :=
  ⟨rfl, by decide, onSendHook_not_modified sampleScript ⟨304, [("etag", .str "W/1c-18")]⟩
    .null rfl⟩

/-- C4, at the failing input: a response with status 200 and no content-type header,
which is not an HTML response. `onSendHook` raises a `TypeError` on
`reply.getHeader("content-type").startsWith`, so `done` is not called and no body is
served, where the claim has the payload passed on unchanged. -/
theorem onSendHook_untyped_reply_not_served :
    untypedReply.getHeader "content-type" = none ∧
    untypedReply.statusCode ≠ 304 ∧
    onSendHook sampleScript untypedReply (.readable [bytes "hello world"]) =
      .error .typeError ∧
    servedBody sampleScript untypedReply (.readable [bytes "hello world"]) ≠
      .ok (.readable [bytes "hello world"]) := by
  refine ⟨by decide, by decide, by decide, by decide⟩

/-- C7, at the failing input: an HTML response with status 200, `content-length` 28 and
a string payload. `onSendHook` passes the payload on as it is, but the `content-length`
header is no longer 28: the length of the script was added before the payload was
found not to be a stream. -/
theorem onSendHook_non_stream_content_length :
    onSendHook sampleScript (htmlReply 28) (.string "<html><body>hi</body></html>") =
      .ok (htmlReply (28 + sampleScript.length),
        ⟨none, .original (.string "<html><body>hi</body></html>")⟩) ∧
    htmlReply (28 + sampleScript.length) ≠ htmlReply 28 := by
  refine ⟨by decide, by decide⟩

/-- C8, at the failing input: a response with status 200 and no content-type header.
`onSendHook` raises a `TypeError` (`startsWith` of `undefined`) and never calls `done`. -/
theorem onSendHook_no_content_type_raises :
    (⟨200, [("content-length", .num 5)]⟩ : Reply).getHeader "content-type" = none ∧
    onSendHook sampleScript ⟨200, [("content-length", .num 5)]⟩
      (.readable [bytes "hello"]) = .error .typeError := by
  refine ⟨by decide, by decide⟩

/-! ## The claims: the hub -/

/-- C5: in every reachable state of the hub (any sequence of connects and closes), one
change event makes exactly one call of `socket.send` on each channel that is registered
at that time, the data is `reload`, and it makes no call on a channel that is not
registered, in particular on none whose close came before the broadcast; the calls
are what the change adds to the record of the hub. -/
theorem broadcast_once_per_registered_channel (s : Hub) (stale : Nat → Bool)
    (hs : Reachable s) :
    (∀ k ∈ broadcast stale s.listeners, k.data = "reload") ∧
    (∀ c, c ∈ s.listeners →
      ((broadcast stale s.listeners).map SendCall.socket).count c = 1) ∧
    (∀ c, c ∉ s.listeners →
      ((broadcast stale s.listeners).map SendCall.socket).count c = 0) ∧
    (∀ c, c ∈ s.closed →
      ((broadcast stale s.listeners).map SendCall.socket).count c = 0) ∧
    (∀ c, s.isOpen c → c ∈ s.listeners) ∧
    (s.change stale).wire = s.wire ++ broadcast stale s.listeners := by
  obtain ⟨hnd, hmem, _⟩ := reachable_invariant s hs
  refine ⟨?_, ?_, ?_, ?_, ?_, rfl⟩
  · intro k hk
    rw [broadcast_eq, List.mem_map] at hk
    obtain ⟨c, _, rfl⟩ := hk
    rfl
  · intro c hc
    rw [broadcast_sockets]
    exact List.count_eq_one_of_mem hnd hc
  · intro c hc
    rw [broadcast_sockets]
    exact List.count_eq_zero_of_not_mem hc
  · intro c hc
    rw [broadcast_sockets]
    exact List.count_eq_zero_of_not_mem (fun hin => ((hmem c).1 hin).2 hc)
  · intro c hc
    exact (hmem c).2 hc

theorem broadcast_once_per_registered_channel_witness :
    Reachable middleClosed ∧
    middleClosed.listeners = [0, 2] ∧
    broadcast (fun c => c == 0) middleClosed.listeners =
      [⟨0, "reload", false⟩, ⟨2, "reload", true⟩] ∧
    ((broadcast (fun c => c == 0) middleClosed.listeners).map SendCall.socket).count 0 = 1 ∧
    ((broadcast (fun c => c == 0) middleClosed.listeners).map SendCall.socket).count 2 = 1 ∧
    ((broadcast (fun c => c == 0) middleClosed.listeners).map SendCall.socket).count 1 = 0 :=
  ⟨reachable_middleClosed, by decide, by decide,
    (broadcast_once_per_registered_channel middleClosed (fun c => c == 0)
      reachable_middleClosed).2.1 0 (by decide),
    (broadcast_once_per_registered_channel middleClosed (fun c => c == 0)
      reachable_middleClosed).2.1 2 (by decide),
    (broadcast_once_per_registered_channel middleClosed (fun c => c == 0)
      reachable_middleClosed).2.2.2.1 1 (by decide)⟩

/-- C6, as stated, fails in its second half: with three channels registered and the
second socket no longer open, the send on it fails (nothing goes out), the other two
channels get `reload`, and the failing channel is still registered after the
broadcast. -/
theorem broadcast_keeps_failing_channel :
    threeOpen.listeners = [0, 1, 2] ∧
    broadcast (fun c => c == 1) threeOpen.listeners =
      [⟨0, "reload", true⟩, ⟨1, "reload", false⟩, ⟨2, "reload", true⟩] ∧
    1 ∈ (threeOpen.change (fun c => c == 1)).listeners ∧
    (threeOpen.change (fun c => c == 1)).listeners = [0, 1, 2] := by
  refine ⟨by decide, by decide, by decide, by decide⟩

/-- C6, amended: during a broadcast of one change event, a send failure on one channel
does not abort delivery to the other registered channels: every registered channel
whose socket is open gets `reload`, exactly once. The failure does not remove the
registration of the failing channel: the broadcast leaves the registrations as they
were, and the registration goes when the close event of the channel fires. -/
theorem broadcast_survives_failed_send (s : Hub) (stale : Nat → Bool)
    (hs : Reachable s) :
    (∀ c ∈ s.listeners, stale c = false →
      (⟨c, "reload", true⟩ : SendCall) ∈ broadcast stale s.listeners ∧
      ((broadcast stale s.listeners).map SendCall.socket).count c = 1) ∧
    (∀ c ∈ s.listeners, stale c = true →
      (⟨c, "reload", false⟩ : SendCall) ∈ broadcast stale s.listeners ∧
      (∀ k ∈ broadcast stale s.listeners, k.socket = c → k.delivered = false) ∧
      c ∈ (s.change stale).listeners) ∧
    (s.change stale).listeners = s.listeners ∧
    (∀ c, c ∉ ((s.change stale).close c).listeners) := by
  obtain ⟨hnd, _, _⟩ := reachable_invariant s hs
  refine ⟨?_, ?_, rfl, ?_⟩
  · intro c hc hst
    refine ⟨?_, ?_⟩
    · rw [broadcast_eq, List.mem_map]
      exact ⟨c, hc, by simp [hst]⟩
    · rw [broadcast_sockets]
      exact List.count_eq_one_of_mem hnd hc
  · intro c hc hst
    refine ⟨?_, ?_, hc⟩
    · rw [broadcast_eq, List.mem_map]
      exact ⟨c, hc, by simp [hst]⟩
    · intro k hk hkc
      rw [broadcast_eq, List.mem_map] at hk
      obtain ⟨d, _, rfl⟩ := hk
      simp only at hkc
      subst hkc
      simp [hst]
  · intro c hin
    have := (mem_removeListener s.listeners c c hnd).1 hin
    exact this.1 rfl

theorem broadcast_survives_failed_send_witness :
    Reachable threeOpen ∧
    (⟨2, "reload", true⟩ : SendCall) ∈ broadcast (fun c => c == 1) threeOpen.listeners ∧
    (⟨1, "reload", false⟩ : SendCall) ∈ broadcast (fun c => c == 1) threeOpen.listeners ∧
    (threeOpen.change (fun c => c == 1)).listeners = threeOpen.listeners ∧
    1 ∉ ((threeOpen.change (fun c => c == 1)).close 1).listeners :=
  ⟨reachable_threeOpen,
    ((broadcast_survives_failed_send threeOpen (fun c => c == 1) reachable_threeOpen).1
      2 (by decide) (by decide)).1,
    ((broadcast_survives_failed_send threeOpen (fun c => c == 1) reachable_threeOpen).2.1
      1 (by decide) (by decide)).1,
    (broadcast_survives_failed_send threeOpen (fun c => c == 1) reachable_threeOpen).2.2.1,
    (broadcast_survives_failed_send threeOpen (fun c => c == 1) reachable_threeOpen).2.2.2 1⟩

/-- C9: in every state the hub can reach by connects, closes and change broadcasts
(with or without failing sends), no handler is registered twice, the registered handlers
are exactly those of the open connections (accepted, `close` not yet fired), and no
connection whose `close` has fired is still registered. -/
theorem registrations_are_open_connections (s : Hub) (hs : Reachable s) :
    s.listeners.Nodup ∧ (∀ c, c ∈ s.listeners ↔ s.isOpen c) ∧
    (∀ c ∈ s.closed, c ∉ s.listeners) := by
  obtain ⟨hnd, hmem, _⟩ := reachable_invariant s hs
  refine ⟨hnd, hmem, ?_⟩
  intro c hc hin
  exact ((hmem c).1 hin).2 hc

theorem registrations_are_open_connections_witness :
    Reachable (middleClosed.change (fun c => c == 0)) ∧
    (middleClosed.change (fun c => c == 0)).listeners = [0, 2] ∧
    ((middleClosed.change (fun c => c == 0)).listeners.Nodup ∧
    (∀ c, c ∈ (middleClosed.change (fun c => c == 0)).listeners ↔
      (middleClosed.change (fun c => c == 0)).isOpen c) ∧
    (∀ c ∈ (middleClosed.change (fun c => c == 0)).closed,
      c ∉ (middleClosed.change (fun c => c == 0)).listeners)) :=
  ⟨.step reachable_middleClosed (.change _ _), by decide,
    registrations_are_open_connections _
      (.step reachable_middleClosed (.change _ _))⟩

end LiveReload
